import Mathlib

/-!
# Verification of the aspect-ratio-service core

A shallow embedding, in Lean 4, of the aspect-ratio normalization service:

* `lib/imageProcessor.js` — aspect-ratio classification (`detectAspectRatio`),
  the scale-and-pad geometry (`createPaddedImage`), and the per-target
  processing loop (`processAllAspectRatios`);
* `lib/auth.js` — webhook signature verification and generation
  (`verifyWebhookSignature`, `generateWebhookSignature`), header validation
  and payload parsing;
* `api/process.js` — the webhook handler (`handler`), modelled as a function
  from the outcomes of its external collaborators (database, object store,
  network, image codec) to an HTTP response plus the ordered trace of
  persistent side effects it issues.

Modelling conventions:

* JavaScript number arithmetic is modelled as exact rational arithmetic
  over `ℚ`; the decimal literal `0.05` denotes `1/20 : ℚ` exactly, and
  `Math.round` is Mathlib's `round` (`round x = ⌊x + 1/2⌋`, which rounds
  halves up exactly as `Math.round` does for the non-negative values
  arising here).
* Byte buffers are lists of bytes (`List (Fin 256)` for digests,
  `List ℕ` for image bytes).
* The HMAC-SHA256 primitive of node's `crypto` module is an external
  collaborator; the auth functions are parametrized by it (`mac`).
* Fallible collaborator calls are `Except String` values supplied by an
  environment record; `throw`/`catch` control flow is made explicit.
-/

namespace AspectRatioService

/-! ## Definitions -/

/-- The `ASPECT_RATIO_DIMENSIONS` constant table, in source order:
each ratio key maps to `(width, height)`. -/
def aspectRatioDimensions : List (String × ℕ × ℕ) :=
  [("1:1", 1024, 1024), ("16:9", 1024, 576), ("9:16", 576, 1024)]

/-- Function `detectAspectRatio(width, height)`: classify dimensions into
`'1:1'`, `'16:9'`, `'9:16'` or `'other'` with a 5% tolerance, checks in
source order. -/
def detectAspectRatio (width height : ℚ) : String :=
  let ratio := width / height
  let tolerance : ℚ := 0.05
  if |ratio - 1| < tolerance then "1:1"
  else if |ratio - 16 / 9| < tolerance then "16:9"
  else if |ratio - 9 / 16| < tolerance then "9:16"
  else "other"

/-- The geometric data computed by `createPaddedImage`: the resize target
`newWidth × newHeight`, the composite offsets `top`/`left`, and the
dimensions of the background canvas the resized image is composited onto.
The encoded output image has exactly the canvas dimensions, since the
canvas is created at `targetWidth × targetHeight` and compositing does not
change dimensions. -/
structure PaddedGeometry where
  newWidth : ℤ
  newHeight : ℤ
  top : ℤ
  left : ℤ
  canvasWidth : ℕ
  canvasHeight : ℕ
deriving DecidableEq, Repr

/-- Function `createPaddedImage(imageBuffer, targetWidth, targetHeight)`: the numeric
part, with the source image's metadata dimensions passed explicitly
(`originalWidth`/`originalHeight` in the source). Mirrors the source:
`scale = min(targetWidth/originalWidth, targetHeight/originalHeight)`,
`newWidth/newHeight = Math.round(original * scale)`, composite offsets
`Math.round((target - new) / 2)`, canvas created at the exact target size. -/
def createPaddedImage (originalWidth originalHeight targetWidth targetHeight : ℕ) :
    PaddedGeometry :=
  let scaleWidth : ℚ := (targetWidth : ℚ) / (originalWidth : ℚ)
  let scaleHeight : ℚ := (targetHeight : ℚ) / (originalHeight : ℚ)
  let scale := min scaleWidth scaleHeight
  let newWidth := round ((originalWidth : ℚ) * scale)
  let newHeight := round ((originalHeight : ℚ) * scale)
  ⟨newWidth, newHeight,
    round (((targetHeight : ℚ) - (newHeight : ℚ)) / 2),
    round (((targetWidth : ℚ) - (newWidth : ℚ)) / 2),
    targetWidth, targetHeight⟩

/-- Modelled from the spec: the same-ratio "optimize" path calls the external
sharp library with `resize(width, height, { fit: 'inside' })`, which scales
the source to fit entirely within the target box while preserving its own
aspect ratio, enlargement permitted (`withoutEnlargement: false`). The
resulting dimensions scale both axes by the limiting factor. -/
def fitInsideDims (originalWidth originalHeight targetWidth targetHeight : ℕ) : ℤ × ℤ :=
  let scale : ℚ := min ((targetWidth : ℚ) / (originalWidth : ℚ))
    ((targetHeight : ℚ) / (originalHeight : ℚ))
  (round ((originalWidth : ℚ) * scale), round ((originalHeight : ℚ) * scale))

/-- Output pixel dimensions of the variant `processAllAspectRatios` produces
for one entry of `ASPECT_RATIO_DIMENSIONS`: the same-ratio branch
(`originalRatio === ratioKey`) resizes with fit-inside; the cross-ratio
branch calls `createPaddedImage`, whose output has the canvas dimensions. -/
def variantDims (originalWidth originalHeight : ℕ) (ratioKey : String)
    (targetWidth targetHeight : ℕ) : ℤ × ℤ :=
  if detectAspectRatio (originalWidth : ℚ) (originalHeight : ℚ) = ratioKey then
    fitInsideDims originalWidth originalHeight targetWidth targetHeight
  else
    (((createPaddedImage originalWidth originalHeight targetWidth targetHeight).canvasWidth : ℤ),
     ((createPaddedImage originalWidth originalHeight targetWidth targetHeight).canvasHeight : ℤ))

/-- JavaScript `String.prototype.replace` with a string pattern replaces the
first occurrence of the pattern (`ratioKey.replace(':', 'x')` in the
source). Auxiliary recursion over the subject characters. -/
def replaceFirstAux (pattern replacement : List Char) : List Char → List Char
  | [] => if pattern = [] then replacement else []
  | c :: rest =>
    if pattern.isPrefixOf (c :: rest) then
      replacement ++ (c :: rest).drop pattern.length
    else
      c :: replaceFirstAux pattern replacement rest

/-- JavaScript `s.replace(pattern, replacement)` for string patterns:
replace the first occurrence only. -/
def replaceFirst (s pattern replacement : String) : String :=
  ⟨replaceFirstAux pattern.data replacement.data s.data⟩

/-- The result object of `processAllAspectRatios`: the detected source
ratio and, per target, the output key and storage filename. The encoded
buffers are produced by the external sharp library and carry no naming
information; both the optimize and the pad branch assign the same
`filename` expression, so the naming model covers both. -/
structure ProcessedResult where
  originalAspectRatio : String
  processedImages : List (String × String)
deriving DecidableEq, Repr

/-- Function `processAllAspectRatios(originalImageBuffer, characterId)`: the naming
and classification part, with the buffer's metadata dimensions and the
run's single `Date.now()` timestamp passed explicitly. -/
def processAllAspectRatios (originalWidth originalHeight : ℕ) (characterId : String)
    (timestamp : ℕ) : ProcessedResult :=
  let originalRatio := detectAspectRatio (originalWidth : ℚ) (originalHeight : ℚ)
  ⟨originalRatio,
    aspectRatioDimensions.map (fun e =>
      let outputKey := replaceFirst e.1 ":" "x"
      (outputKey,
        "characters/" ++ characterId ++ "/aspect-ratios/" ++ outputKey ++ "-" ++
          toString timestamp ++ ".jpg"))⟩

/-- Hex digit value of a character, by code point ranges 0-9, a-f, A-F;
`Buffer.from(str, 'hex')` accepts both cases. -/
def hexVal (c : Char) : Option (Fin 16) :=
  let n := c.toNat
  if hd : 48 ≤ n ∧ n ≤ 57 then some ⟨n - 48, by omega⟩
  else if hl : 97 ≤ n ∧ n ≤ 102 then some ⟨n - 87, by omega⟩
  else if hu : 65 ≤ n ∧ n ≤ 70 then some ⟨n - 55, by omega⟩
  else none

/-- Lowercase hex digit character, as produced by `digest('hex')`. -/
def nibbleChar (n : ℕ) : Char :=
  "0123456789abcdef".data.getD n '0'

/-- Hex-encode a byte list (two lowercase hex characters per byte). -/
def hexEncodeL : List (Fin 256) → List Char
  | [] => []
  | b :: rest => nibbleChar ((b : ℕ) / 16) :: nibbleChar ((b : ℕ) % 16) :: hexEncodeL rest

/-- Primitive `Buffer.from(str, 'hex')`: decode hex pairs greedily, stopping at the
first character pair that is not valid hex (node's behavior: malformed
input yields a truncated, possibly empty, buffer — it does not throw). -/
def hexDecodeL : List Char → List (Fin 256)
  | c1 :: c2 :: rest =>
    match hexVal c1, hexVal c2 with
    | some hi, some lo =>
      (⟨16 * (hi : ℕ) + (lo : ℕ), by have h1 := hi.isLt; have h2 := lo.isLt; omega⟩ :
        Fin 256) :: hexDecodeL rest
    | _, _ => []
  | _ => []

/-- Digest rendering `digest('hex')` as a string. -/
def hexEncode (bytes : List (Fin 256)) : String :=
  ⟨hexEncodeL bytes⟩

/-- The prefix strip `signature.replace(/^sha256=/, '')`: strip the prefix when present. -/
def stripSha256Prefix (signature : String) : String :=
  if "sha256=".data.isPrefixOf signature.data then ⟨signature.data.drop 7⟩ else signature

/-- Primitive `crypto.timingSafeEqual`: throws on buffers of different lengths,
otherwise compares contents (the timing-safety itself is a real-time
property outside the embedding; the comparison result is exact). -/
def timingSafeEqual (a b : List (Fin 256)) : Except String Bool :=
  if a.length ≠ b.length then .error "Input buffers must have the same byte length"
  else .ok (decide (a = b))

/-- Function `verifyWebhookSignature(payload, signature, secret)`: `false` on any
missing/empty argument, else strip the `sha256=` prefix, recompute the
digest, hex-decode both sides and compare with `timingSafeEqual`; the
surrounding `try`/`catch` maps a thrown error to `false`. (JavaScript
string falsiness for these string-typed arguments is emptiness; an absent
argument is modelled as the empty string.) -/
def verifyWebhookSignature (mac : String → String → List (Fin 256))
    (payload signature secret : String) : Bool :=
  if payload = "" ∨ signature = "" ∨ secret = "" then false
  else
    let cleanSignature := stripSha256Prefix signature
    let expectedSignature := hexEncode (mac payload secret)
    match timingSafeEqual (hexDecodeL cleanSignature.data)
        (hexDecodeL expectedSignature.data) with
    | .ok b => b
    | .error _ => false

/-- Function `generateWebhookSignature(payload, secret)`: hex digest with the
`sha256=` prefix. -/
def generateWebhookSignature (mac : String → String → List (Fin 256))
    (payload secret : String) : String :=
  "sha256=" ++ hexEncode (mac payload secret)

/-- A concrete stand-in digest function used to instantiate the
MAC-parametrized theorems at concrete inputs. -/
def demoMac (payload secret : String) : List (Fin 256) :=
  [⟨(payload.length + 2 * secret.length) % 256, Nat.mod_lt _ (by norm_num)⟩]

/-- The parsed JSON body (`JSON.parse` is a runtime primitive): the fields
`parseWebhookPayload` inspects. Absent string fields are the empty string
(both are falsy). -/
structure WebhookPayload where
  characterId : String
  imageUrl : String
  timeoutMs : Option ℕ
deriving DecidableEq, Repr

/-- Function `validateWebhookHeaders(headers)`: `contentTypeJson` models
`headers['content-type']?.includes('application/json')`; an absent
`x-webhook-signature` header is the empty string. Returns
`(success, errors)`. -/
def validateWebhookHeaders (contentTypeJson : Bool) (signatureHeader : String) :
    Bool × List String :=
  let errors :=
    (if ¬ contentTypeJson then ["Missing or invalid Content-Type header"] else []) ++
    (if signatureHeader = "" then ["Missing X-Webhook-Signature header"] else [])
  (decide (errors.length = 0), errors)

/-- Function `parseWebhookPayload(body)`: empty body, a `JSON.parse` failure
(`jsonParse = none`, message abstracted), or a missing required field
yields the error message the source throws; otherwise the payload. -/
def parseWebhookPayload (body : String) (jsonParse : Option WebhookPayload) :
    Except String WebhookPayload :=
  if body = "" then .error "Empty request body"
  else
    match jsonParse with
    | none => .error "Unexpected token in JSON"
    | some payload =>
      if payload.characterId = "" then .error "Missing characterId in payload"
      else if payload.imageUrl = "" then .error "Missing imageUrl in payload"
      else .ok payload

/-- The magic-number table of `validateImageBuffer`, in source order. -/
def imageSignatures : List (String × List ℕ) :=
  [("jpeg", [0xFF, 0xD8]), ("png", [0x89, 0x50, 0x4E, 0x47]),
   ("webp", [0x52, 0x49, 0x46, 0x46]), ("gif", [0x47, 0x49, 0x46])]

/-- First table entry whose signature is a prefix of the buffer
(the source checks `length >= sig.length` and byte-wise equality at the
start, i.e. the prefix relation), else `'unknown'`. -/
def detectFormat : List (String × List ℕ) → List ℕ → String
  | [], _ => "unknown"
  | (fmt, sig) :: rest, buf =>
    if sig.isPrefixOf buf then fmt else detectFormat rest buf

/-- Result shape of `validateImageBuffer`. -/
structure ImageValidation where
  valid : Bool
  error : Option String
  format : Option String
deriving DecidableEq, Repr

/-- Function `validateImageBuffer(imageBuffer)`: empty buffer or unrecognized magic
number is invalid (the `Buffer.isBuffer` check is type-level here, buffers
being byte lists). -/
def validateImageBuffer (imageBuffer : List ℕ) : ImageValidation :=
  if imageBuffer.length = 0 then ⟨false, some "Image buffer is empty", none⟩
  else
    let detectedFormat := detectFormat imageSignatures imageBuffer
    if detectedFormat = "unknown" then ⟨false, some "Unrecognized image format", none⟩
    else ⟨true, none, some detectedFormat⟩

/-- The persistent side effects the handler issues, in order:
`updateAspectRatioStatus`, `updateCharacterAspectRatios`, and the
detached `cleanupOldAspectRatioFiles` task (whose `failed` flag records
whether the detached task rejects; the rejection is caught and logged). -/
inductive Effect where
  | statusUpdate (characterId : String) (status : String) (errorMessage : Option String)
  | recordUpdate (characterId : String) (urls : List (String × String))
      (detectedClass : String)
  | cleanup (characterId : String) (failed : Bool)
deriving DecidableEq, Repr

def Effect.isStatusUpdate : Effect → Bool
  | .statusUpdate _ _ _ => true
  | _ => false

def Effect.isRecordUpdate : Effect → Bool
  | .recordUpdate _ _ _ => true
  | _ => false

def Effect.isCleanup : Effect → Bool
  | .cleanup _ _ => true
  | _ => false

/-- The handler's observable outcome: HTTP status, the `success` flag of
the JSON body, its message/error string, and the ordered effect trace
(every effect is issued before the HTTP response is produced). -/
structure HandlerResult where
  status : ℕ
  success : Bool
  message : String
  effects : List Effect
deriving DecidableEq, Repr

/-- Outcomes of the external collaborators for one request, supplied as
data: request headers and body, the `WEBHOOK_SECRET` configuration (`""`
models the unset variable), `JSON.parse`, `getCharacterById`,
`downloadImage`, sharp's metadata read, a sharp failure inside
`processAllAspectRatios` (`processFailure`), the run's `Date.now()`,
`uploadImageToStorage` keyed by target filename, and
`updateCharacterAspectRatios`. `cleanupFails` tells whether the detached
cleanup task would reject. -/
structure Collaborators where
  contentTypeJson : Bool
  signatureHeader : String
  rawBody : Option String
  webhookSecret : String
  jsonParse : Option WebhookPayload
  characterLookup : Except String Unit
  download : Except String (List ℕ)
  metadata : Except String (ℕ × ℕ)
  processFailure : Option String
  timestamp : ℕ
  uploadResult : String → Except String String
  recordUpdateResult : Except String Unit
  cleanupFails : Bool

/-- JavaScript `String.prototype.includes`. -/
def isInfixAux (pat : List Char) : List Char → Bool
  | [] => decide (pat = [])
  | c :: rest => pat.isPrefixOf (c :: rest) || isInfixAux pat rest

/-- The check `message.includes(pat)`. -/
def strIncludes (s pat : String) : Bool :=
  isInfixAux pat.data s.data

/-- The substring-based HTTP status selection of the handler's catch
block. -/
def errorStatusCode (message : String) : ℕ :=
  if strIncludes message "not found" || strIncludes message "404" then 404
  else if strIncludes message "timeout" || strIncludes message "TIMEOUT" then 408
  else if strIncludes message "too large" || strIncludes message "limit" then 413
  else if strIncludes message "invalid" || strIncludes message "malformed" then 400
  else 500

/-- The handler's catch block: persist `failed` with the error message when
a characterId is already known (the persist attempt's own failure is
swallowed by the inner `try`), pick the HTTP status by substring checks,
respond with `Processing failed: <message>`. -/
def catchResponse (characterId : Option String) (effs : List Effect) (message : String) :
    HandlerResult :=
  let effs2 := match characterId with
    | some cid => effs ++ [Effect.statusUpdate cid "failed" (some message)]
    | none => effs
  ⟨errorStatusCode message, false, "Processing failed: " ++ message, effs2⟩

/-- Barrier `Promise.all` over the per-variant uploads: `ok` with the
`aspectRatioUrls` pairs when all succeed, otherwise the error of the
first (in entry order) failing upload. Under the claims' single-failure
hypothesis this coincides with the temporal first-rejection semantics. -/
def allUploads (uploadResult : String → Except String String) :
    List (String × String) → Except String (List (String × String))
  | [] => .ok []
  | (key, filename) :: rest =>
    match uploadResult filename with
    | .error e => .error e
    | .ok url =>
      match allUploads uploadResult rest with
      | .error e => .error e
      | .ok urls => .ok ((key, url) :: urls)

/-- The webhook handler of `api/process.js` (POST path), from header
validation to the response. -/
def handler (mac : String → String → List (Fin 256)) (env : Collaborators) :
    HandlerResult :=
  let hv := validateWebhookHeaders env.contentTypeJson env.signatureHeader
  if ¬ hv.1 then
    ⟨400, false, "Invalid headers: " ++ String.intercalate ", " hv.2, []⟩
  else
    match env.rawBody with
    | none => ⟨400, false, "Invalid request body format", []⟩
    | some rawBody =>
      if env.webhookSecret = "" then ⟨500, false, "Server configuration error", []⟩
      else if ¬ verifyWebhookSignature mac rawBody env.signatureHeader env.webhookSecret then
        ⟨401, false, "Invalid webhook signature", []⟩
      else
        match parseWebhookPayload rawBody env.jsonParse with
        | .error e => ⟨400, false, e, []⟩
        | .ok payload =>
          let cid := payload.characterId
          let effs0 := [Effect.statusUpdate cid "processing" none]
          match env.characterLookup with
          | .error _ =>
            ⟨404, false, "Character not found",
              effs0 ++ [Effect.statusUpdate cid "failed" (some "Character not found")]⟩
          | .ok _ =>
            match env.download with
            | .error e => catchResponse (some cid) effs0 e
            | .ok imageBuffer =>
              let validation := validateImageBuffer imageBuffer
              if ¬ validation.valid then
                let errorMsg := "Invalid image: " ++ validation.error.getD ""
                ⟨400, false, errorMsg,
                  effs0 ++ [Effect.statusUpdate cid "failed" (some errorMsg)]⟩
              else
                match env.metadata with
                | .error e => catchResponse (some cid) effs0 e
                | .ok (width, height) =>
                  match env.processFailure with
                  | some e => catchResponse (some cid) effs0 e
                  | none =>
                    let result := processAllAspectRatios width height cid env.timestamp
                    match allUploads env.uploadResult result.processedImages with
                    | .error e => catchResponse (some cid) effs0 e
                    | .ok urls =>
                      match env.recordUpdateResult with
                      | .error e =>
                        catchResponse (some cid)
                          (effs0 ++
                            [Effect.recordUpdate cid urls result.originalAspectRatio]) e
                      | .ok _ =>
                        ⟨200, true, "Aspect ratios processed successfully",
                          effs0 ++
                            [Effect.recordUpdate cid urls result.originalAspectRatio,
                             Effect.cleanup cid env.cleanupFails]⟩

-- Decidable equality for collaborator outcomes supplied as `Except` values.
deriving instance DecidableEq for Except

/-- A concrete collaborator environment in which every guard passes, the
image is a valid JPEG, and exactly the `1x1` variant's upload fails with
a storage error while the other two succeed. -/
def envOneUploadFail : Collaborators :=
  ⟨true, generateWebhookSignature demoMac "body" "k", some "body", "k",
   some ⟨"char-1", "https://img", none⟩,
   .ok (), .ok [0xFF, 0xD8, 0xFF, 0xE0], .ok (1024, 1024), none, 42,
   fun fn => if fn = "characters/char-1/aspect-ratios/1x1-42.jpg" then
       .error "storage exploded"
     else .ok ("https://cdn/" ++ fn),
   .ok (), false⟩

/-- A concrete environment whose request fails header validation (wrong
content type, no signature header). -/
def envBadHeaders : Collaborators :=
  ⟨false, "", some "body", "k", none, .ok (), .error "net", .error "net", none, 0,
   fun _ => .error "net", .ok (), false⟩

/-- Replace only the detached cleanup task's outcome, leaving every other
collaborator outcome unchanged. -/
def setCleanupFails (env : Collaborators) (b : Bool) : Collaborators :=
  ⟨env.contentTypeJson, env.signatureHeader, env.rawBody, env.webhookSecret,
   env.jsonParse, env.characterLookup, env.download, env.metadata, env.processFailure,
   env.timestamp, env.uploadResult, env.recordUpdateResult, b⟩

/-! ## Theorems -/

theorem round_nonneg_of_nonneg {x : ℚ} (hx : 0 ≤ x) : 0 ≤ round x := by
  rw [round_eq, Int.le_floor]
  push_cast
  linarith

theorem round_le_int {x : ℚ} {n : ℤ} (h : x ≤ n) : round x ≤ n := by
  have h2 : round x ≤ round ((n : ℚ)) := by
    rw [round_eq, round_eq]
    exact Int.floor_le_floor (by linarith)
  simpa using h2

/-- Centering an integer-width object in an integer-width box with the
source's rounding rule leaves margins that differ by at most one. -/
theorem round_half_center (d : ℤ) :
    |round ((d : ℚ) / 2) - (d - round ((d : ℚ) / 2))| ≤ 1 := by
  rcases Int.even_or_odd d with ⟨m, rfl⟩ | ⟨m, rfl⟩
  · have h1 : ((m + m : ℤ) : ℚ) / 2 = (m : ℚ) := by push_cast; ring
    rw [h1, round_intCast]
    simp
  · have h1 : ((2 * m + 1 : ℤ) : ℚ) / 2 = (m : ℚ) + 1 / 2 := by push_cast; ring
    have h2 : round ((m : ℚ) + 1 / 2) = m + 1 := by
      rw [round_eq]
      have h3 : (m : ℚ) + 1 / 2 + 1 / 2 = ((m + 1 : ℤ) : ℚ) := by push_cast; ring
      rw [h3, Int.floor_intCast]
    rw [h1, h2]
    have h4 : (m + 1) - (2 * m + 1 - (m + 1)) = 1 := by ring
    rw [h4]
    norm_num

/-- The resized dimensions never exceed the target and are non-negative. -/
theorem scaled_dims_bounds (sw sh tw th : ℕ) (hsw : 0 < sw) (hsh : 0 < sh) :
    0 ≤ round ((sw : ℚ) * min ((tw : ℚ) / (sw : ℚ)) ((th : ℚ) / (sh : ℚ))) ∧
    round ((sw : ℚ) * min ((tw : ℚ) / (sw : ℚ)) ((th : ℚ) / (sh : ℚ))) ≤ (tw : ℤ) ∧
    0 ≤ round ((sh : ℚ) * min ((tw : ℚ) / (sw : ℚ)) ((th : ℚ) / (sh : ℚ))) ∧
    round ((sh : ℚ) * min ((tw : ℚ) / (sw : ℚ)) ((th : ℚ) / (sh : ℚ))) ≤ (th : ℤ) := by
  have hsw' : (0 : ℚ) < (sw : ℚ) := by exact_mod_cast hsw
  have hsh' : (0 : ℚ) < (sh : ℚ) := by exact_mod_cast hsh
  have hscale0 : 0 ≤ min ((tw : ℚ) / (sw : ℚ)) ((th : ℚ) / (sh : ℚ)) :=
    le_min (by positivity) (by positivity)
  have hw : (sw : ℚ) * min ((tw : ℚ) / (sw : ℚ)) ((th : ℚ) / (sh : ℚ)) ≤ ((tw : ℤ) : ℚ) := by
    have h1 : (sw : ℚ) * min ((tw : ℚ) / (sw : ℚ)) ((th : ℚ) / (sh : ℚ)) ≤
        (sw : ℚ) * ((tw : ℚ) / (sw : ℚ)) :=
      mul_le_mul_of_nonneg_left (min_le_left _ _) hsw'.le
    have h2 : (sw : ℚ) * ((tw : ℚ) / (sw : ℚ)) = (tw : ℚ) := by field_simp
    push_cast
    linarith
  have hh : (sh : ℚ) * min ((tw : ℚ) / (sw : ℚ)) ((th : ℚ) / (sh : ℚ)) ≤ ((th : ℤ) : ℚ) := by
    have h1 : (sh : ℚ) * min ((tw : ℚ) / (sw : ℚ)) ((th : ℚ) / (sh : ℚ)) ≤
        (sh : ℚ) * ((th : ℚ) / (sh : ℚ)) :=
      mul_le_mul_of_nonneg_left (min_le_right _ _) hsh'.le
    have h2 : (sh : ℚ) * ((th : ℚ) / (sh : ℚ)) = (th : ℚ) := by field_simp
    push_cast
    linarith
  exact ⟨round_nonneg_of_nonneg (by positivity), round_le_int hw,
    round_nonneg_of_nonneg (by positivity), round_le_int hh⟩

/-- C4: `classify(width, height)` computes `ratio = width/height` and tests,
in this fixed order with strict 5% tolerance: `|ratio - 1| < 0.05` gives
square (`'1:1'`), else `|ratio - 16/9| < 0.05` gives landscape, else
`|ratio - 9/16| < 0.05` gives portrait, else other; a ratio of exactly
`1.0475` (= `419/400`) classifies as square, and the five literal cases
hold. -/
theorem detectAspectRatio_order_and_literals (w h : ℚ) (hw : 0 < w) (hh : 0 < h) :
    (|w / h - 1| < 0.05 → detectAspectRatio w h = "1:1") ∧
    (¬ |w / h - 1| < 0.05 → |w / h - 16 / 9| < 0.05 →
      detectAspectRatio w h = "16:9") ∧
    (¬ |w / h - 1| < 0.05 → ¬ |w / h - 16 / 9| < 0.05 → |w / h - 9 / 16| < 0.05 →
      detectAspectRatio w h = "9:16") ∧
    (¬ |w / h - 1| < 0.05 → ¬ |w / h - 16 / 9| < 0.05 → ¬ |w / h - 9 / 16| < 0.05 →
      detectAspectRatio w h = "other") ∧
    detectAspectRatio (419 / 400) 1 = "1:1" ∧
    detectAspectRatio 1024 1024 = "1:1" ∧
    detectAspectRatio 1920 1080 = "16:9" ∧
    detectAspectRatio 1080 1920 = "9:16" ∧
    detectAspectRatio 800 801 = "1:1" ∧
    detectAspectRatio 1000 400 = "other" := by
  refine ⟨?_, ?_, ?_, ?_, ?_, ?_, ?_, ?_, ?_, ?_⟩
  · intro h1
    simp only [detectAspectRatio]
    rw [if_pos h1]
  · intro h1 h2
    simp only [detectAspectRatio]
    rw [if_neg h1, if_pos h2]
  · intro h1 h2 h3
    simp only [detectAspectRatio]
    rw [if_neg h1, if_neg h2, if_pos h3]
  · intro h1 h2 h3
    simp only [detectAspectRatio]
    rw [if_neg h1, if_neg h2, if_neg h3]
  · norm_num [detectAspectRatio, abs_lt]
  · norm_num [detectAspectRatio, abs_lt]
  · norm_num [detectAspectRatio, abs_lt]
  · norm_num [detectAspectRatio, abs_lt]
  · norm_num [detectAspectRatio, abs_lt]
  · norm_num [detectAspectRatio, abs_lt]

/-- Witness for C4 at the concrete input 1024 × 1024. -/
theorem detectAspectRatio_order_and_literals_witness :
    (0 : ℚ) < 1024 ∧ detectAspectRatio 1024 1024 = "1:1" :=
  ⟨by norm_num,
    ((detectAspectRatio_order_and_literals 1024 1024 (by norm_num) (by norm_num)).1
      (by norm_num [abs_lt]))⟩

/-- C5: for every pair of positive integers `(w, h)`, classify is total
(returns one of the four classes) and scale-invariant: classifying
`(k·w, k·h)` for positive `k` gives the same class as `(w, h)`. -/
theorem detectAspectRatio_total_scale_invariant (w h k : ℕ)
    (hw : 0 < w) (hh : 0 < h) (hk : 0 < k) :
    (detectAspectRatio (w : ℚ) (h : ℚ) = "1:1" ∨
     detectAspectRatio (w : ℚ) (h : ℚ) = "16:9" ∨
     detectAspectRatio (w : ℚ) (h : ℚ) = "9:16" ∨
     detectAspectRatio (w : ℚ) (h : ℚ) = "other") ∧
    detectAspectRatio ((k * w : ℕ) : ℚ) ((k * h : ℕ) : ℚ) =
      detectAspectRatio (w : ℚ) (h : ℚ) := by
  constructor
  · simp only [detectAspectRatio]
    split_ifs <;> simp
  · have hr : ((k * w : ℕ) : ℚ) / ((k * h : ℕ) : ℚ) = (w : ℚ) / (h : ℚ) := by
      push_cast
      rw [mul_div_mul_left]
      exact_mod_cast hk.ne'
    simp only [detectAspectRatio, hr]

/-- Witness for C5 at `(w, h, k) = (1920, 1080, 3)`. -/
theorem detectAspectRatio_total_scale_invariant_witness :
    (0 < 1920 ∧ 0 < 1080 ∧ 0 < 3) ∧
    detectAspectRatio ((3 * 1920 : ℕ) : ℚ) ((3 * 1080 : ℕ) : ℚ) =
      detectAspectRatio (1920 : ℚ) (1080 : ℚ) :=
  ⟨by norm_num,
    (detectAspectRatio_total_scale_invariant 1920 1080 3
      (by norm_num) (by norm_num) (by norm_num)).2⟩

/-- C9: on the cross-ratio path the composited region is centered: the
resized dimensions are non-negative and never exceed the target, both
composite offsets are non-negative, and the left/right (resp. top/bottom)
margins differ by at most one pixel. -/
theorem createPaddedImage_centered (sw sh tw th : ℕ)
    (hsw : 0 < sw) (hsh : 0 < sh) (htw : 0 < tw) (hth : 0 < th) :
    0 ≤ (createPaddedImage sw sh tw th).left ∧
    0 ≤ (createPaddedImage sw sh tw th).top ∧
    0 ≤ (createPaddedImage sw sh tw th).newWidth ∧
    (createPaddedImage sw sh tw th).newWidth ≤ (tw : ℤ) ∧
    0 ≤ (createPaddedImage sw sh tw th).newHeight ∧
    (createPaddedImage sw sh tw th).newHeight ≤ (th : ℤ) ∧
    |(createPaddedImage sw sh tw th).left -
      ((tw : ℤ) - (createPaddedImage sw sh tw th).newWidth -
        (createPaddedImage sw sh tw th).left)| ≤ 1 ∧
    |(createPaddedImage sw sh tw th).top -
      ((th : ℤ) - (createPaddedImage sw sh tw th).newHeight -
        (createPaddedImage sw sh tw th).top)| ≤ 1 := by
  obtain ⟨hW0, hWle, hH0, hHle⟩ := scaled_dims_bounds sw sh tw th hsw hsh
  simp only [createPaddedImage]
  set nW := round ((sw : ℚ) * min ((tw : ℚ) / (sw : ℚ)) ((th : ℚ) / (sh : ℚ))) with hnW
  set nH := round ((sh : ℚ) * min ((tw : ℚ) / (sw : ℚ)) ((th : ℚ) / (sh : ℚ))) with hnH
  have hcastW : (tw : ℚ) - (nW : ℚ) = (((tw : ℤ) - nW : ℤ) : ℚ) := by push_cast; ring
  have hcastH : (th : ℚ) - (nH : ℚ) = (((th : ℤ) - nH : ℤ) : ℚ) := by push_cast; ring
  rw [hcastW, hcastH]
  have hdW : (0 : ℤ) ≤ (tw : ℤ) - nW := by linarith
  have hdH : (0 : ℤ) ≤ (th : ℤ) - nH := by linarith
  refine ⟨?_, ?_, hW0, hWle, hH0, hHle, ?_, ?_⟩
  · exact round_nonneg_of_nonneg
      (div_nonneg (by exact_mod_cast hdW) (by norm_num))
  · exact round_nonneg_of_nonneg
      (div_nonneg (by exact_mod_cast hdH) (by norm_num))
  · have h1 := round_half_center ((tw : ℤ) - nW)
    have h2 : (tw : ℤ) - nW - round ((((tw : ℤ) - nW : ℤ) : ℚ) / 2) =
        (tw : ℤ) - nW - round ((((tw : ℤ) - nW : ℤ) : ℚ) / 2) := rfl
    calc |round ((((tw : ℤ) - nW : ℤ) : ℚ) / 2) -
          ((tw : ℤ) - nW - round ((((tw : ℤ) - nW : ℤ) : ℚ) / 2))| =
        |round ((((tw : ℤ) - nW : ℤ) : ℚ) / 2) -
          (((tw : ℤ) - nW) - round ((((tw : ℤ) - nW : ℤ) : ℚ) / 2))| := by ring_nf
      _ ≤ 1 := round_half_center ((tw : ℤ) - nW)
  · calc |round ((((th : ℤ) - nH : ℤ) : ℚ) / 2) -
          ((th : ℤ) - nH - round ((((th : ℤ) - nH : ℤ) : ℚ) / 2))| =
        |round ((((th : ℤ) - nH : ℤ) : ℚ) / 2) -
          (((th : ℤ) - nH) - round ((((th : ℤ) - nH : ℤ) : ℚ) / 2))| := by ring_nf
      _ ≤ 1 := round_half_center ((th : ℤ) - nH)

/-- Witness for C9 at a 800 × 600 source and the 1024 × 1024 target. -/
theorem createPaddedImage_centered_witness :
    (0 < 800 ∧ 0 < 600 ∧ 0 < 1024) ∧
    (0 ≤ (createPaddedImage 800 600 1024 1024).left ∧
     0 ≤ (createPaddedImage 800 600 1024 1024).top ∧
     0 ≤ (createPaddedImage 800 600 1024 1024).newWidth ∧
     (createPaddedImage 800 600 1024 1024).newWidth ≤ (1024 : ℤ) ∧
     0 ≤ (createPaddedImage 800 600 1024 1024).newHeight ∧
     (createPaddedImage 800 600 1024 1024).newHeight ≤ (1024 : ℤ) ∧
     |(createPaddedImage 800 600 1024 1024).left -
       ((1024 : ℤ) - (createPaddedImage 800 600 1024 1024).newWidth -
         (createPaddedImage 800 600 1024 1024).left)| ≤ 1 ∧
     |(createPaddedImage 800 600 1024 1024).top -
       ((1024 : ℤ) - (createPaddedImage 800 600 1024 1024).newHeight -
         (createPaddedImage 800 600 1024 1024).top)| ≤ 1) :=
  ⟨by norm_num,
    createPaddedImage_centered 800 600 1024 1024
      (by norm_num) (by norm_num) (by norm_num) (by norm_num)⟩

/-- Bounds for the fit-inside resize: never larger than the target on
either axis, and exact on at least one axis (the one achieving the
limiting scale factor). -/
theorem fitInsideDims_bounds (sw sh tw th : ℕ) (hsw : 0 < sw) (hsh : 0 < sh) :
    0 ≤ (fitInsideDims sw sh tw th).1 ∧ (fitInsideDims sw sh tw th).1 ≤ (tw : ℤ) ∧
    0 ≤ (fitInsideDims sw sh tw th).2 ∧ (fitInsideDims sw sh tw th).2 ≤ (th : ℤ) ∧
    ((fitInsideDims sw sh tw th).1 = (tw : ℤ) ∨ (fitInsideDims sw sh tw th).2 = (th : ℤ)) := by
  obtain ⟨h1, h2, h3, h4⟩ := scaled_dims_bounds sw sh tw th hsw hsh
  have hsw' : ((sw : ℚ)) ≠ 0 := by
    exact_mod_cast hsw.ne'
  have hsh' : ((sh : ℚ)) ≠ 0 := by
    exact_mod_cast hsh.ne'
  simp only [fitInsideDims]
  refine ⟨h1, h2, h3, h4, ?_⟩
  rcases min_choice ((tw : ℚ) / (sw : ℚ)) ((th : ℚ) / (sh : ℚ)) with hmin | hmin
  · left
    rw [hmin]
    have hc : (sw : ℚ) * ((tw : ℚ) / (sw : ℚ)) = ((tw : ℤ) : ℚ) := by
      push_cast
      field_simp
    rw [hc, round_intCast]
  · right
    rw [hmin]
    have hc : (sh : ℚ) * ((th : ℚ) / (sh : ℚ)) = ((th : ℤ) : ℚ) := by
      push_cast
      field_simp
    rw [hc, round_intCast]

/-- C1 counterexample: the source image 1040 × 1000 classifies as `'1:1'`
(ratio 1.04, within the 5% tolerance), so the square target takes the
same-ratio fit-inside path, which produces 1024 × 985 — not the
1024 × 1024 the claim requires. -/
theorem variantDims_counterexample :
    detectAspectRatio (1040 : ℚ) (1000 : ℚ) = "1:1" ∧
    ("1:1", 1024, 1024) ∈ aspectRatioDimensions ∧
    variantDims 1040 1000 "1:1" 1024 1024 = ((1024 : ℤ), (985 : ℤ)) ∧
    variantDims 1040 1000 "1:1" 1024 1024 ≠ ((1024 : ℤ), (1024 : ℤ)) := by
  have hdet : detectAspectRatio (1040 : ℚ) (1000 : ℚ) = "1:1" := by
    norm_num [detectAspectRatio, abs_lt]
  have hfit : fitInsideDims 1040 1000 1024 1024 = ((1024 : ℤ), (985 : ℤ)) := by
    simp only [fitInsideDims]
    push_cast
    have hmin : min ((1024 : ℚ) / 1040) ((1024 : ℚ) / 1000) = 64 / 65 := by
      rw [min_def]
      norm_num
    rw [hmin, Prod.ext_iff]
    constructor
    · norm_num [round_eq]
    · have he : (1000 : ℚ) * (64 / 65) + 1 / 2 = 25613 / 26 := by norm_num
      show round ((1000 : ℚ) * (64 / 65)) = 985
      rw [round_eq, he, Int.floor_eq_iff]
      norm_num
  have hdet2 : detectAspectRatio ((1040 : ℕ) : ℚ) ((1000 : ℕ) : ℚ) = "1:1" := by
    push_cast
    exact hdet
  have hdims : variantDims 1040 1000 "1:1" 1024 1024 = ((1024 : ℤ), (985 : ℤ)) := by
    rw [variantDims, if_pos hdet2, hfit]
  refine ⟨hdet, by simp [aspectRatioDimensions], hdims, ?_⟩
  rw [hdims]
  simp

/-- C1 amended: on the cross-ratio (pad-onto-canvas) path the variant's
pixel dimensions equal the TargetSpec exactly; on the same-ratio
(optimize, fit-inside) path the dimensions never exceed the TargetSpec
and are exact on at least one axis, but may fall short on the other
(the source is only within 5% of the target ratio, not at it). -/
theorem variantDims_target_bounds (ow oh : ℕ) (how : 0 < ow) (hoh : 0 < oh)
    (k : String) (tw th : ℕ) (hmem : (k, tw, th) ∈ aspectRatioDimensions) :
    (detectAspectRatio (ow : ℚ) (oh : ℚ) ≠ k →
      variantDims ow oh k tw th = ((tw : ℤ), (th : ℤ))) ∧
    (detectAspectRatio (ow : ℚ) (oh : ℚ) = k →
      0 ≤ (variantDims ow oh k tw th).1 ∧ (variantDims ow oh k tw th).1 ≤ (tw : ℤ) ∧
      0 ≤ (variantDims ow oh k tw th).2 ∧ (variantDims ow oh k tw th).2 ≤ (th : ℤ) ∧
      ((variantDims ow oh k tw th).1 = (tw : ℤ) ∨
        (variantDims ow oh k tw th).2 = (th : ℤ))) := by
  constructor
  · intro hne
    simp only [variantDims, if_neg hne, createPaddedImage]
  · intro heq
    simp only [variantDims, if_pos heq]
    exact fitInsideDims_bounds ow oh tw th how hoh

/-- Witness for the amended C1 at a 1920 × 1080 source and the square
target (cross-ratio path: exact target dimensions). -/
theorem variantDims_target_bounds_witness :
    (0 < 1920 ∧ 0 < 1080 ∧ ("1:1", 1024, 1024) ∈ aspectRatioDimensions ∧
      detectAspectRatio (1920 : ℚ) (1080 : ℚ) ≠ "1:1") ∧
    variantDims 1920 1080 "1:1" 1024 1024 = ((1024 : ℤ), (1024 : ℤ)) :=
  ⟨⟨by norm_num, by norm_num, by simp [aspectRatioDimensions],
      by norm_num [detectAspectRatio, abs_lt]; decide⟩,
    (variantDims_target_bounds 1920 1080 (by norm_num) (by norm_num) "1:1" 1024 1024
        (by simp [aspectRatioDimensions])).1
      (by norm_num [detectAspectRatio, abs_lt]; decide)⟩

/-- Two strings framed by the same prefix and suffix strings are equal only
if the framed parts are equal. -/
theorem append_frame_inj {p s t u a b : String}
    (h : p ++ a ++ s ++ t ++ u = p ++ b ++ s ++ t ++ u) : a = b := by
  apply String.ext
  have hd := congrArg String.data h
  simp only [String.data_append] at hd
  exact List.append_cancel_left
    (List.append_cancel_right (List.append_cancel_right (List.append_cancel_right hd)))

/-- C10: every run of `processAllAspectRatios` produces exactly three
variants, keyed `'1x1'`, `'16x9'`, `'9x16'`, whose filenames share the
prefix `characters/<characterId>/aspect-ratios/` and the run's single
timestamp, and the three filenames are pairwise distinct. -/
theorem processAllAspectRatios_naming (ow oh : ℕ) (characterId : String) (timestamp : ℕ) :
    (processAllAspectRatios ow oh characterId timestamp).processedImages =
      [("1x1", "characters/" ++ characterId ++ "/aspect-ratios/" ++ "1x1" ++ "-" ++
          toString timestamp ++ ".jpg"),
       ("16x9", "characters/" ++ characterId ++ "/aspect-ratios/" ++ "16x9" ++ "-" ++
          toString timestamp ++ ".jpg"),
       ("9x16", "characters/" ++ characterId ++ "/aspect-ratios/" ++ "9x16" ++ "-" ++
          toString timestamp ++ ".jpg")] ∧
    ((processAllAspectRatios ow oh characterId timestamp).processedImages.map
      Prod.snd).Nodup := by
  have himg : (processAllAspectRatios ow oh characterId timestamp).processedImages =
      [("1x1", "characters/" ++ characterId ++ "/aspect-ratios/" ++ "1x1" ++ "-" ++
          toString timestamp ++ ".jpg"),
       ("16x9", "characters/" ++ characterId ++ "/aspect-ratios/" ++ "16x9" ++ "-" ++
          toString timestamp ++ ".jpg"),
       ("9x16", "characters/" ++ characterId ++ "/aspect-ratios/" ++ "9x16" ++ "-" ++
          toString timestamp ++ ".jpg")] := rfl
  refine ⟨himg, ?_⟩
  rw [himg]
  have h12 : "characters/" ++ characterId ++ "/aspect-ratios/" ++ "1x1" ++ "-" ++
      toString timestamp ++ ".jpg" ≠
      "characters/" ++ characterId ++ "/aspect-ratios/" ++ "16x9" ++ "-" ++
      toString timestamp ++ ".jpg" :=
    fun h => absurd (append_frame_inj h) (by decide)
  have h13 : "characters/" ++ characterId ++ "/aspect-ratios/" ++ "1x1" ++ "-" ++
      toString timestamp ++ ".jpg" ≠
      "characters/" ++ characterId ++ "/aspect-ratios/" ++ "9x16" ++ "-" ++
      toString timestamp ++ ".jpg" :=
    fun h => absurd (append_frame_inj h) (by decide)
  have h23 : "characters/" ++ characterId ++ "/aspect-ratios/" ++ "16x9" ++ "-" ++
      toString timestamp ++ ".jpg" ≠
      "characters/" ++ characterId ++ "/aspect-ratios/" ++ "9x16" ++ "-" ++
      toString timestamp ++ ".jpg" :=
    fun h => absurd (append_frame_inj h) (by decide)
  simp [List.nodup_cons, h12, h13, h23]

theorem hexVal_nibbleChar (n : ℕ) (h : n < 16) : hexVal (nibbleChar n) = some ⟨n, h⟩ := by
  interval_cases n <;> rfl

theorem hexDecodeL_hexEncodeL (bs : List (Fin 256)) : hexDecodeL (hexEncodeL bs) = bs := by
  induction bs with
  | nil => rfl
  | cons b rest ih =>
    have h1 : (b : ℕ) / 16 < 16 := by have := b.isLt; omega
    have h2 : (b : ℕ) % 16 < 16 := Nat.mod_lt _ (by norm_num)
    simp only [hexEncodeL, hexDecodeL, hexVal_nibbleChar _ h1, hexVal_nibbleChar _ h2, ih]
    congr 1
    apply Fin.ext
    simp [Nat.div_add_mod]

theorem stripSha256Prefix_append (t : String) : stripSha256Prefix ("sha256=" ++ t) = t := by
  have hp : "sha256=".data.isPrefixOf ("sha256=" ++ t).data = true := by
    rw [String.data_append]
    exact List.isPrefixOf_iff_prefix.mpr (List.prefix_append _ _)
  simp only [stripSha256Prefix, hp, if_true]
  have hd : ("sha256=" ++ t).data.drop 7 = t.data := by
    rw [String.data_append]
    have hlen : ("sha256=".data).length = 7 := rfl
    rw [← hlen]
    exact List.drop_left _ _
  rw [hd]

theorem sha256_append_ne_empty (t : String) : ("sha256=" ++ t) ≠ "" := by
  intro h
  have hd := congrArg String.data h
  rw [String.data_append] at hd
  simp at hd

/-- C7 counterexample: for the empty payload the claim's roundtrip fails —
`verifyWebhookSignature` rejects an empty payload before any signature
comparison (the `!payload` guard), so verifying the generated signature of
the empty payload returns `false`, not `true` as claimed for "every
payload". The guard fires before the digest function is consulted. -/
theorem verify_empty_payload_counterexample :
    verifyWebhookSignature demoMac ""
      (generateWebhookSignature demoMac "" "secret") "secret" = false := by
  decide

/-- C7 amended: for every non-empty payload and non-empty secret, verifying
the signature generated from that same payload and secret returns `true`
(the `sha256=` prefix is stripped); and verification returns `false`
whenever the digest of the presented payload and secret differs from the
digest the signature was generated from — in particular, any byte change
to payload or secret that changes the HMAC value makes verification fail.
(That every byte flip changes the HMAC is collision-resistance of the
external HMAC-SHA256 collaborator, outside this embedding.) -/
theorem verifyWebhookSignature_roundtrip
    (mac : String → String → List (Fin 256)) (payload secret payload' secret' : String)
    (hp : payload ≠ "") (hs : secret ≠ "") (hp' : payload' ≠ "") (hs' : secret' ≠ "") :
    verifyWebhookSignature mac payload (generateWebhookSignature mac payload secret) secret
      = true ∧
    (mac payload' secret' ≠ mac payload secret →
      verifyWebhookSignature mac payload'
        (generateWebhookSignature mac payload secret) secret' = false) := by
  have hsig : generateWebhookSignature mac payload secret ≠ "" :=
    sha256_append_ne_empty _
  have hclean : stripSha256Prefix (generateWebhookSignature mac payload secret) =
      hexEncode (mac payload secret) := stripSha256Prefix_append (hexEncode (mac payload secret))
  have hdec : hexDecodeL (hexEncode (mac payload secret)).data = mac payload secret :=
    hexDecodeL_hexEncodeL _
  constructor
  · simp only [verifyWebhookSignature]
    rw [if_neg (by simp [hp, hs, hsig])]
    rw [hclean, hdec]
    simp [timingSafeEqual]
  · intro hne
    simp only [verifyWebhookSignature]
    rw [if_neg (by simp [hp', hs', hsig])]
    rw [hclean, hdec]
    have hdec' : hexDecodeL (hexEncode (mac payload' secret')).data = mac payload' secret' :=
      hexDecodeL_hexEncodeL _
    rw [hdec']
    by_cases hlen : (mac payload secret).length = (mac payload' secret').length
    · simp [timingSafeEqual, hlen]
      exact Ne.symm hne
    · simp [timingSafeEqual, hlen]

/-- Witness for the amended C7: a concrete digest function, payload `"a"`,
secret `"b"`; the altered payload `"ab"` changes the digest and fails. -/
theorem verifyWebhookSignature_roundtrip_witness :
    (("a" : String) ≠ "" ∧ ("b" : String) ≠ "" ∧ ("ab" : String) ≠ "" ∧
      demoMac "ab" "b" ≠ demoMac "a" "b") ∧
    verifyWebhookSignature demoMac "a" (generateWebhookSignature demoMac "a" "b") "b"
      = true ∧
    verifyWebhookSignature demoMac "ab" (generateWebhookSignature demoMac "a" "b") "b"
      = false :=
  ⟨by decide,
    (verifyWebhookSignature_roundtrip demoMac "a" "b" "ab" "b" (by decide) (by decide)
      (by decide) (by decide)).1,
    (verifyWebhookSignature_roundtrip demoMac "a" "b" "ab" "b" (by decide) (by decide)
      (by decide) (by decide)).2 (by decide)⟩

/-- C8 counterexample: a malformed-hex signature is accepted. The correct
digest hex followed by the invalid character `'z'` is not well-formed hex
(`hexVal 'z' = none`), yet `Buffer.from(str, 'hex')` truncates at the
first invalid character, so it decodes to exactly the expected digest and
verification returns `true` — contradicting the claim that malformed hex
of the presented side returns `false`. -/
theorem verify_malformed_hex_counterexample :
    hexVal 'z' = none ∧
    "sha256=03z" = generateWebhookSignature demoMac "a" "b" ++ "z" ∧
    verifyWebhookSignature demoMac "a" "sha256=03z" "b" = true := by
  decide

/-- C8 amended: `verifyWebhookSignature` is a total function into `Bool`
(the source's `try`/`catch` and the modelled `timingSafeEqual` exception
are explicit — verification failure is a normal value, never a thrown
one): it returns `false` whenever the payload, the presented signature,
or the secret is missing/empty; and for non-empty inputs it returns
`true` exactly when the presented signature's hex decoding — truncated at
the first invalid character, as `Buffer.from(str, 'hex')` does — equals
the expected digest. In particular malformed hex that truncates to a
wrong-length or wrong-content byte string returns `false`, but malformed
trailing characters after a full correct digest are ignored. -/
theorem verifyWebhookSignature_total_behavior
    (mac : String → String → List (Fin 256)) (payload signature secret : String) :
    (payload = "" ∨ signature = "" ∨ secret = "" →
      verifyWebhookSignature mac payload signature secret = false) ∧
    (payload ≠ "" → signature ≠ "" → secret ≠ "" →
      (verifyWebhookSignature mac payload signature secret = true ↔
        hexDecodeL (stripSha256Prefix signature).data = mac payload secret)) := by
  constructor
  · intro h
    simp only [verifyWebhookSignature]
    rw [if_pos h]
  · intro hp hs hsec
    simp only [verifyWebhookSignature]
    rw [if_neg (by simp [hp, hs, hsec])]
    have hdec : hexDecodeL (hexEncode (mac payload secret)).data = mac payload secret :=
      hexDecodeL_hexEncodeL _
    rw [hdec]
    by_cases hlen : (hexDecodeL (stripSha256Prefix signature).data).length
      = (mac payload secret).length
    · simp [timingSafeEqual, hlen]
    · simp [timingSafeEqual, hlen]
      exact fun h => hlen (congrArg List.length h)

/-- Witness for the amended C8: the wrong-content malformed signature
`"zz"` (decoding to the empty buffer) is rejected, by the right-to-left
contrapositive of the characterization. -/
theorem verifyWebhookSignature_total_behavior_witness :
    (("p" : String) ≠ "" ∧ ("zz" : String) ≠ "" ∧ ("s" : String) ≠ "") ∧
    (verifyWebhookSignature demoMac "p" "zz" "s" = true ↔
      hexDecodeL (stripSha256Prefix "zz").data = demoMac "p" "s") :=
  ⟨by decide, (verifyWebhookSignature_total_behavior demoMac "p" "zz" "s").2
    (by decide) (by decide) (by decide)⟩

/-- If one upload in the list fails and every upload with a different
filename succeeds, the joined `Promise.all` outcome is that failure. -/
theorem allUploads_single_error (up : String → Except String String)
    (l : List (String × String)) (f : String × String) (e : String)
    (hmem : f ∈ l) (hf : up f.2 = .error e)
    (hothers : ∀ g ∈ l, g.2 ≠ f.2 → (up g.2).isOk = true) :
    allUploads up l = .error e := by
  induction l with
  | nil => cases hmem
  | cons a rest ih =>
    by_cases ha : a.2 = f.2
    · have hae : up a.2 = .error e := by rw [ha, hf]
      obtain ⟨ak, af⟩ := a
      simp only [allUploads]
      rw [show up af = Except.error e from hae]
    · have hfr : f ∈ rest := by
        rcases List.mem_cons.mp hmem with h | h
        · exact absurd (by rw [h]) ha
        · exact h
      have hok := hothers a (List.mem_cons_self a rest) ha
      have hrest := ih hfr (fun g hg hne => hothers g (List.mem_cons_of_mem _ hg) hne)
      obtain ⟨ak, af⟩ := a
      simp only [allUploads]
      cases hup : up af with
      | error e2 =>
        rw [hup] at hok
        simp [Except.isOk, Except.toBool] at hok
      | ok url =>
        rw [hrest]

/-- C2: when exactly one of the three variant uploads fails (and the others
succeed), the job ends with persisted status `failed` carrying that
upload's error as the cause, and the effect trace is exactly the
`processing` update followed by the `failed` update — in particular no
character-record update, no cleanup, and no compensating delete of the
already-uploaded variants occur. -/
theorem handler_upload_barrier
    (mac : String → String → List (Fin 256)) (env : Collaborators)
    (rawBody : String) (payload : WebhookPayload) (imageBuffer : List ℕ)
    (width height : ℕ) (f : String × String) (e : String)
    (hhv : (validateWebhookHeaders env.contentTypeJson env.signatureHeader).1 = true)
    (hbody : env.rawBody = some rawBody)
    (hsecret : ¬ env.webhookSecret = "")
    (hverify : verifyWebhookSignature mac rawBody env.signatureHeader env.webhookSecret
      = true)
    (hparse : parseWebhookPayload rawBody env.jsonParse = .ok payload)
    (hlookup : env.characterLookup = .ok ())
    (hdownload : env.download = .ok imageBuffer)
    (hvalid : (validateImageBuffer imageBuffer).valid = true)
    (hmeta : env.metadata = .ok (width, height))
    (hproc : env.processFailure = none)
    (hmem : f ∈ (processAllAspectRatios width height payload.characterId
        env.timestamp).processedImages)
    (hf : env.uploadResult f.2 = .error e)
    (hothers : ∀ g ∈ (processAllAspectRatios width height payload.characterId
        env.timestamp).processedImages, g.2 ≠ f.2 →
        (env.uploadResult g.2).isOk = true) :
    (handler mac env).success = false ∧
    (handler mac env).effects =
      [Effect.statusUpdate payload.characterId "processing" none,
       Effect.statusUpdate payload.characterId "failed" (some e)] ∧
    (∀ ef ∈ (handler mac env).effects,
      ef.isRecordUpdate = false ∧ ef.isCleanup = false) := by
  have hall := allUploads_single_error env.uploadResult
    ((processAllAspectRatios width height payload.characterId
      env.timestamp).processedImages) f e hmem hf hothers
  have hres : handler mac env =
      ⟨errorStatusCode e, false, "Processing failed: " ++ e,
        [Effect.statusUpdate payload.characterId "processing" none,
         Effect.statusUpdate payload.characterId "failed" (some e)]⟩ := by
    simp [handler, hbody, hhv, hsecret, hverify, hparse, hlookup, hdownload, hmeta,
      hproc, hall, hvalid, catchResponse]
  rw [hres]
  refine ⟨rfl, rfl, ?_⟩
  intro ef hef
  rcases List.mem_cons.mp hef with h | h
  · rw [h]
    exact ⟨rfl, rfl⟩
  · rcases List.mem_singleton.mp h with rfl
    exact ⟨rfl, rfl⟩

/-- Witness for C2 at the concrete environment `envOneUploadFail`. -/
theorem handler_upload_barrier_witness :
    (envOneUploadFail.uploadResult "characters/char-1/aspect-ratios/1x1-42.jpg"
      = .error "storage exploded") ∧
    (handler demoMac envOneUploadFail).success = false ∧
    (handler demoMac envOneUploadFail).effects =
      [Effect.statusUpdate "char-1" "processing" none,
       Effect.statusUpdate "char-1" "failed" (some "storage exploded")] :=
  ⟨by decide,
    (handler_upload_barrier demoMac envOneUploadFail "body"
      ⟨"char-1", "https://img", none⟩ [0xFF, 0xD8, 0xFF, 0xE0] 1024 1024
      ("1x1", "characters/char-1/aspect-ratios/1x1-42.jpg") "storage exploded"
      (by decide) (by decide) (by decide) (by decide) (by decide) (by decide)
      (by decide) (by decide) (by decide) (by decide) (by decide) (by decide)
      (by decide)).1,
    (handler_upload_barrier demoMac envOneUploadFail "body"
      ⟨"char-1", "https://img", none⟩ [0xFF, 0xD8, 0xFF, 0xE0] 1024 1024
      ("1x1", "characters/char-1/aspect-ratios/1x1-42.jpg") "storage exploded"
      (by decide) (by decide) (by decide) (by decide) (by decide) (by decide)
      (by decide) (by decide) (by decide) (by decide) (by decide) (by decide)
      (by decide)).2.1⟩

/-- C3: (a) failures in header validation, body extraction, configuration,
signature verification, or payload parsing produce an error response with
an empty effect trace — no job status is created or updated; (b) once the
request has passed parsing (the entity id is known), every run that ends
with an error response has persisted status `failed` with a cause string
among its effects (all effects are issued before the HTTP response;
best-effort cleanup failures are swallowed inside the `cleanup` effect and
never produce an error response). -/
theorem handler_failure_persistence
    (mac : String → String → List (Fin 256)) (env : Collaborators) :
    (((validateWebhookHeaders env.contentTypeJson env.signatureHeader).1 = false ∨
      env.rawBody = none ∨
      env.webhookSecret = "" ∨
      (∃ rb, env.rawBody = some rb ∧
        verifyWebhookSignature mac rb env.signatureHeader env.webhookSecret = false) ∨
      (∃ rb e, env.rawBody = some rb ∧
        parseWebhookPayload rb env.jsonParse = .error e)) →
      (handler mac env).success = false ∧ (handler mac env).effects = []) ∧
    (∀ rb payload,
      (validateWebhookHeaders env.contentTypeJson env.signatureHeader).1 = true →
      env.rawBody = some rb →
      env.webhookSecret ≠ "" →
      verifyWebhookSignature mac rb env.signatureHeader env.webhookSecret = true →
      parseWebhookPayload rb env.jsonParse = .ok payload →
      (handler mac env).success = false →
      ∃ msg, Effect.statusUpdate payload.characterId "failed" (some msg) ∈
        (handler mac env).effects) := by
  constructor
  · intro hfail
    by_cases hhv : (validateWebhookHeaders env.contentTypeJson env.signatureHeader).1 = true
    · cases hbody : env.rawBody with
      | none => simp [handler, hhv, hbody]
      | some rb =>
        by_cases hsec : env.webhookSecret = ""
        · simp [handler, hhv, hbody, hsec]
        · cases hver : verifyWebhookSignature mac rb env.signatureHeader env.webhookSecret
          with
          | false => simp [handler, hhv, hbody, hsec, hver]
          | true =>
            cases hparse : parseWebhookPayload rb env.jsonParse with
            | error e => simp [handler, hhv, hbody, hsec, hver, hparse]
            | ok payload =>
              exfalso
              rcases hfail with h | h | h | ⟨rb2, hrb2, hv2⟩ | ⟨rb2, e2, hrb2, hp2⟩
              · rw [hhv] at h
                cases h
              · rw [hbody] at h
                cases h
              · exact hsec h
              · rw [hbody] at hrb2
                injection hrb2 with hrb3
                subst hrb3
                rw [hver] at hv2
                cases hv2
              · rw [hbody] at hrb2
                injection hrb2 with hrb3
                subst hrb3
                rw [hparse] at hp2
                cases hp2
    · have hhv' : (validateWebhookHeaders env.contentTypeJson env.signatureHeader).1
        = false := by
        simp only [Bool.not_eq_true] at hhv
        exact hhv
      simp [handler, hhv']
  · intro rb payload hhv hbody hsec hver hparse hsucc
    cases hlook : env.characterLookup with
    | error e =>
      refine ⟨"Character not found", ?_⟩
      simp [handler, hhv, hbody, hsec, hver, hparse, hlook]
    | ok u =>
      cases hdl : env.download with
      | error e =>
        refine ⟨e, ?_⟩
        simp [handler, hhv, hbody, hsec, hver, hparse, hlook, hdl, catchResponse]
      | ok buf =>
        by_cases hval : (validateImageBuffer buf).valid = true
        · cases hmeta : env.metadata with
          | error e =>
            refine ⟨e, ?_⟩
            simp [handler, hhv, hbody, hsec, hver, hparse, hlook, hdl, hval, hmeta,
              catchResponse]
          | ok wh =>
            obtain ⟨w, h⟩ := wh
            cases hproc : env.processFailure with
            | some e =>
              refine ⟨e, ?_⟩
              simp [handler, hhv, hbody, hsec, hver, hparse, hlook, hdl, hval, hmeta,
                hproc, catchResponse]
            | none =>
              cases hupl : allUploads env.uploadResult
                (processAllAspectRatios w h payload.characterId
                  env.timestamp).processedImages with
              | error e =>
                refine ⟨e, ?_⟩
                simp [handler, hhv, hbody, hsec, hver, hparse, hlook, hdl, hval, hmeta,
                  hproc, hupl, catchResponse]
              | ok urls =>
                cases hrec : env.recordUpdateResult with
                | error e =>
                  refine ⟨e, ?_⟩
                  simp [handler, hhv, hbody, hsec, hver, hparse, hlook, hdl, hval,
                    hmeta, hproc, hupl, hrec, catchResponse]
                | ok u2 =>
                  exfalso
                  have hs : (handler mac env).success = true := by
                    simp [handler, hhv, hbody, hsec, hver, hparse, hlook, hdl, hval,
                      hmeta, hproc, hupl, hrec]
                  rw [hs] at hsucc
                  cases hsucc
        · have hval' : (validateImageBuffer buf).valid = false := by
            simp only [Bool.not_eq_true] at hval
            exact hval
          refine ⟨"Invalid image: " ++ (validateImageBuffer buf).error.getD "", ?_⟩
          simp [handler, hhv, hbody, hsec, hver, hparse, hlook, hdl, hval']

/-- Witness for C3: the bad-header request produces an error response with
no effects; the failed-upload run persists `failed` before responding. -/
theorem handler_failure_persistence_witness :
    ((validateWebhookHeaders envBadHeaders.contentTypeJson
        envBadHeaders.signatureHeader).1 = false ∧
      (handler demoMac envBadHeaders).success = false ∧
      (handler demoMac envBadHeaders).effects = []) ∧
    (∃ msg, Effect.statusUpdate "char-1" "failed" (some msg) ∈
      (handler demoMac envOneUploadFail).effects) :=
  ⟨⟨by decide,
    (handler_failure_persistence demoMac envBadHeaders).1 (Or.inl (by decide))⟩,
    (handler_failure_persistence demoMac envOneUploadFail).2 "body"
      ⟨"char-1", "https://img", none⟩ (by decide) (by decide) (by decide) (by decide)
      (by decide) (by decide)⟩

/-- C6 counterexample: in the concrete failed run `envOneUploadFail` the job
ends `failed`, and no cleanup task is scheduled — the cleanup call sits on
the success path only, so it is not issued "regardless of whether the job
ends completed or failed". -/
theorem handler_cleanup_missing_on_failure :
    (∃ msg, Effect.statusUpdate "char-1" "failed" (some msg) ∈
      (handler demoMac envOneUploadFail).effects) ∧
    (∀ ef ∈ (handler demoMac envOneUploadFail).effects, ef.isCleanup = false) :=
  ⟨⟨"storage exploded", by decide⟩, by decide⟩

/-- C6 amended: a cleanup task is scheduled exactly on the success path
(after the record update, when the job completes) — not on failed runs;
and whether the detached cleanup task fails never changes the HTTP status,
the success flag, or the persisted status updates. -/
theorem handler_cleanup_policy
    (mac : String → String → List (Fin 256)) (env : Collaborators) (b : Bool) :
    ((∃ ef ∈ (handler mac env).effects, ef.isCleanup = true) ↔
      (handler mac env).success = true) ∧
    (handler mac (setCleanupFails env b)).status = (handler mac env).status ∧
    (handler mac (setCleanupFails env b)).success = (handler mac env).success ∧
    (handler mac (setCleanupFails env b)).effects.filter Effect.isStatusUpdate =
      (handler mac env).effects.filter Effect.isStatusUpdate := by
  by_cases hhv : (validateWebhookHeaders env.contentTypeJson env.signatureHeader).1 = true
  case neg =>
    have hhv' : (validateWebhookHeaders env.contentTypeJson env.signatureHeader).1
      = false := by
      simp only [Bool.not_eq_true] at hhv
      exact hhv
    simp [handler, setCleanupFails, hhv']
  case pos =>
  cases hbody : env.rawBody with
  | none => simp [handler, setCleanupFails, hhv, hbody]
  | some rb =>
  by_cases hsec : env.webhookSecret = ""
  case pos => simp [handler, setCleanupFails, hhv, hbody, hsec]
  case neg =>
  cases hver : verifyWebhookSignature mac rb env.signatureHeader env.webhookSecret with
  | false => simp [handler, setCleanupFails, hhv, hbody, hsec, hver]
  | true =>
  cases hparse : parseWebhookPayload rb env.jsonParse with
  | error e => simp [handler, setCleanupFails, hhv, hbody, hsec, hver, hparse]
  | ok payload =>
  cases hlook : env.characterLookup with
  | error e =>
    simp [handler, setCleanupFails, hhv, hbody, hsec, hver, hparse, hlook,
      Effect.isCleanup, Effect.isStatusUpdate]
  | ok u =>
  cases hdl : env.download with
  | error e =>
    simp [handler, setCleanupFails, hhv, hbody, hsec, hver, hparse, hlook, hdl,
      catchResponse, Effect.isCleanup, Effect.isStatusUpdate]
  | ok buf =>
  by_cases hval : (validateImageBuffer buf).valid = true
  case neg =>
    have hval' : (validateImageBuffer buf).valid = false := by
      simp only [Bool.not_eq_true] at hval
      exact hval
    simp [handler, setCleanupFails, hhv, hbody, hsec, hver, hparse, hlook, hdl, hval',
      Effect.isCleanup, Effect.isStatusUpdate]
  case pos =>
  cases hmeta : env.metadata with
  | error e =>
    simp [handler, setCleanupFails, hhv, hbody, hsec, hver, hparse, hlook, hdl, hval,
      hmeta, catchResponse, Effect.isCleanup, Effect.isStatusUpdate]
  | ok wh =>
  obtain ⟨w, h⟩ := wh
  cases hproc : env.processFailure with
  | some e =>
    simp [handler, setCleanupFails, hhv, hbody, hsec, hver, hparse, hlook, hdl, hval,
      hmeta, hproc, catchResponse, Effect.isCleanup, Effect.isStatusUpdate]
  | none =>
  cases hupl : allUploads env.uploadResult
    (processAllAspectRatios w h payload.characterId env.timestamp).processedImages with
  | error e =>
    simp [handler, setCleanupFails, hhv, hbody, hsec, hver, hparse, hlook, hdl, hval,
      hmeta, hproc, hupl, catchResponse, Effect.isCleanup, Effect.isStatusUpdate]
  | ok urls =>
  cases hrec : env.recordUpdateResult with
  | error e =>
    simp [handler, setCleanupFails, hhv, hbody, hsec, hver, hparse, hlook, hdl, hval,
      hmeta, hproc, hupl, hrec, catchResponse, Effect.isCleanup, Effect.isStatusUpdate]
  | ok u2 =>
    simp [handler, setCleanupFails, hhv, hbody, hsec, hver, hparse, hlook, hdl, hval,
      hmeta, hproc, hupl, hrec, Effect.isCleanup, Effect.isStatusUpdate]

end AspectRatioService
